import Mathlib

/-!
Verification development for the rpi-crypto-ticker-display repository.

The Python source is shallowly embedded: Python floats become `ℚ`,
Python `None`/optional values become `Option`, a raised exception
becomes `Except.error`, and the mutable module-level containers become
explicit state records threaded through the functions.  Each definition
carries a pointer to the source location it embeds.
-/

namespace RCT

/-! ## Configuration constants (src/src/constants.py)

Values are the defaults used when `config.json` is absent or invalid. -/

/-- src/src/constants.py line 23: `CANDLE_SECONDS = config_data.get("candle_seconds", 60)`. -/
def CANDLE_SECONDS : ℚ := 60

/-- src/src/constants.py line 24: `MAX_CANDLES = config_data.get("max_candles", 14)`. -/
def MAX_CANDLES : ℕ := 14

/-- src/src/constants.py line 47: default miner active threshold `0.25`. -/
def MINER_ACTIVE_THRESHOLD : ℚ := 1/4

/-- src/src/constants.py lines 59-66: status colors (RGB triples). -/
def GREEN : ℕ × ℕ × ℕ := (0, 230, 140)

/-- src/src/constants.py line 63: `RED = (255, 90, 90)`. -/
def RED : ℕ × ℕ × ℕ := (255, 90, 90)

/-- src/src/constants.py line 65: `ORANGE = (255, 180, 0)`. -/
def ORANGE : ℕ × ℕ × ℕ := (255, 180, 0)

/-! ## Candles and ticker records (src/src/data.py, src/src/helpers.py) -/

/-- Python `int()` applied to a float: truncation toward zero
(src/src/helpers.py line 131 writes `"start": int(now)`). -/
def pyInt (q : ℚ) : ℤ := if 0 ≤ q then ⌊q⌋ else ⌈q⌉

/-- One OHLC candle dict as built in src/src/helpers.py lines 130-136.
The Python key `"open"` is rendered as the field `open_` because `open`
is a Lean keyword. -/
structure Candle where
  start : ℤ
  open_ : ℚ
  high : ℚ
  low : ℚ
  close : ℚ
deriving DecidableEq, Repr

/-- Per-symbol container, src/src/data.py lines 13-23 (`class TickerData`).
`candles` is the deque with `maxlen=MAX_CANDLES`, oldest element first. -/
structure TickerData where
  price : Option ℚ
  change_24h : ℚ
  status : String
  last_update : Option ℚ
  candles : List Candle
  current_candle : Option Candle
  source : String
  last_marquee_price : Option ℚ
deriving DecidableEq, Repr

/-- `TickerData.__init__` defaults, src/src/data.py lines 15-23. -/
def initTicker (source : String) : TickerData where
  price := none
  change_24h := 0
  status := "Connecting…"
  last_update := none
  candles := []
  current_candle := none
  source := source
  last_marquee_price := none

/-- Append to a `collections.deque` with a `maxlen` bound: when full,
the oldest (leftmost) element is evicted (src/src/data.py line 20). -/
def dequeAppend (maxlen : ℕ) (l : List α) (x : α) : List α :=
  if l.length < maxlen then l ++ [x] else l.tail ++ [x]

/-- src/src/helpers.py lines 113-140, `update_ticker_data`, restricted to a
single `TickerData` record (the `data[key]` lookup is modelled separately in
`update_ticker_data_store`).  `now` is the `time.time()` value read at line
116; `candleSeconds` and `maxCandles` stand for `CANDLE_SECONDS` and the
deque bound `MAX_CANDLES`. -/
def updateTickerFields (candleSeconds : ℚ) (maxCandles : ℕ)
    (t : TickerData) (now price change : ℚ) (update_marquee : Bool) :
    TickerData :=
  let t1 : TickerData :=
    { t with
      price := some price
      change_24h := change
      status := "Live"
      last_update := some now
      last_marquee_price := if update_marquee then some price else t.last_marquee_price }
  match t1.current_candle with
  | none =>
    { t1 with
      current_candle := some ⟨pyInt now, price, price, price, price⟩ }
  | some c =>
    if candleSeconds ≤ now - (c.start : ℚ) then
      { t1 with
        candles := dequeAppend maxCandles t1.candles c
        current_candle := some ⟨pyInt now, price, price, price, price⟩ }
    else
      { t1 with
        current_candle := some { c with
          high := max c.high price
          low := min c.low price
          close := price } }

/-- The shared ticker map `data` of src/src/data.py line 26, as an
association list keyed by the lowercase symbol. -/
def Store := List (String × TickerData)

/-- Python dict lookup `data[key]` (first matching key). -/
def storeLookup (st : Store) (key : String) : Option TickerData :=
  (st.find? (fun kv => kv.1 == key)).map (fun kv => kv.2)

/-- In-place mutation of the record bound to `key` (all writes in
`update_ticker_data` go through the object obtained from `data[key]`). -/
def storeSet (st : Store) (key : String) (t : TickerData) : Store :=
  st.map (fun kv => if kv.1 == key then (kv.1, t) else kv)

/-- src/src/helpers.py lines 113-140 including the `data[key]` lookup at
line 118: an unknown key raises `KeyError` (modelled as `Except.error ()`)
before any field of the store is written. -/
def update_ticker_data (candleSeconds : ℚ) (maxCandles : ℕ)
    (st : Store) (key : String) (now price change : ℚ)
    (update_marquee : Bool) : Except Unit Store :=
  match storeLookup st key with
  | none => Except.error ()
  | some t =>
    Except.ok (storeSet st key
      (updateTickerFields candleSeconds maxCandles t now price change update_marquee))

/-- Feeding a sequence of `(timestamp, price)` samples through the update
path of a single ticker record (change fixed to 0 and
`update_marquee = true`; neither affects the candle logic). -/
def runSamples (candleSeconds : ℚ) (maxCandles : ℕ)
    (samples : List (ℚ × ℚ)) (t : TickerData) : TickerData :=
  samples.foldl
    (fun acc s => updateTickerFields candleSeconds maxCandles acc s.1 s.2 0 true) t

/-- Candle well-formedness as stated in the spec: `high` dominates
`open`, `close` and `low`; `low` is below `open` and `close`. -/
def wfCandle (c : Candle) : Prop :=
  c.open_ ≤ c.high ∧ c.close ≤ c.high ∧ c.low ≤ c.high ∧
  c.low ≤ c.open_ ∧ c.low ≤ c.close

instance (c : Candle) : Decidable (wfCandle c) := by
  unfold wfCandle; infer_instance

/-! ## Connection health (src/src/helpers.py lines 35-70, `get_ws_color`) -/

/-- Known-good phrases for the Binance status string,
src/src/helpers.py lines 57-60. -/
def binanceOkPhrases : List String :=
  ["websocket connected", "binance ws connected", "connected",
   "live", "open", "connecting…", "subscription sent"]

/-- Known-good phrases for the Kraken status string,
src/src/helpers.py lines 61-64. -/
def krakenOkPhrases : List String :=
  ["websocket connected", "kraken subscription sent", "connected",
   "live", "open", "connecting…", "subscription sent"]

/-- Python `str.lower()`: lower-case every character (character-wise map;
the statuses involved are ASCII apart from the ellipsis, which has no
case mapping). -/
def pyLower (s : String) : String :=
  ⟨s.data.map Char.toLower⟩

/-- `binance_ws_status.lower() in [...]`, src/src/helpers.py lines 57-60. -/
def binanceOk (status : String) : Bool :=
  binanceOkPhrases.contains (pyLower status)

/-- `kraken_ws_status.lower() in [...]`, src/src/helpers.py lines 61-64. -/
def krakenOk (status : String) : Bool :=
  krakenOkPhrases.contains (pyLower status)

/-- src/src/helpers.py lines 35-70: the color decision of `get_ws_color`
as a function of the cached WiFi probe result and the two driver status
strings (the periodic refresh of `wifi_ok` at lines 44-46 updates the
first argument; the claims quantify over its value). -/
def get_ws_color (wifi_ok : Bool) (binance_ws_status kraken_ws_status : String) :
    ℕ × ℕ × ℕ :=
  if !wifi_ok then RED
  else
    let binance_ok := binanceOk binance_ws_status
    let kraken_ok := krakenOk kraken_ws_status
    if binance_ok && kraken_ok then GREEN
    else if binance_ok || kraken_ok then ORANGE
    else RED

/-- Initial Binance driver status, src/src/data.py line 52. -/
def initialBinanceStatus : String := "Connecting…"

/-- Initial Kraken driver status, src/src/data.py line 53. -/
def initialKrakenStatus : String := "Connecting…"

/-! ## Network statistics polling (src/src/mempool.py, `run_mempool_polling`) -/

/-- Shared `mempool_data` dict, src/src/data.py lines 39-45.
Every field starts as `None`. -/
structure MempoolData where
  fees_sats_vb : Option ℚ
  block_height : Option ℕ
  mining_pool : Option String
  network_hashrate_eh : Option ℚ
  network_difficulty : Option ℚ
deriving DecidableEq, Repr

/-- The all-`None` reset written in the `except` branch,
src/src/mempool.py lines 76-83. -/
def mempoolAllNone : MempoolData :=
  ⟨none, none, none, none, none⟩

/-- Python `str.strip()`: drop leading and trailing whitespace
(character-list form). -/
def pyStrip (s : String) : String :=
  ⟨((s.data.dropWhile Char.isWhitespace).reverse.dropWhile Char.isWhitespace).reverse⟩

/-- Python `str.isdigit()` on the ASCII fragment relevant here:
true iff the string is nonempty and all characters are digits. -/
def pyIsDigit (s : String) : Bool :=
  !s.data.isEmpty && s.data.all Char.isDigit

/-- Interpret a digit string as a natural number (`int(height_str)`,
src/src/mempool.py line 35). -/
def pyDigitsToNat (s : String) : ℕ :=
  s.data.foldl (fun n c => 10 * n + (c.toNat - 48)) 0

/-- The outcome of the network fetches of one poll cycle,
src/src/mempool.py lines 22-62.  `Except.error ()` stands for any raised
exception (network failure, malformed JSON, a non-numeric value handed to
`float(...)` — including `float(None)` when `"halfHourFee"` is missing).
A successfully decoded response carries the already-typed value:
`feesHalfHour` is the optional `"halfHourFee"` field, `heightText` and
`blockHashText` the response bodies before `.strip()`, `blockPoolName` the
optional `extras.pool.name` chain, `blockDifficulty` the optional
`"difficulty"` field, and `hashrateCurrent` the optional
`"currentHashrate"` field. -/
structure MempoolFetches where
  feesResp : Except Unit (Option ℚ)
  heightResp : Except Unit String
  blockHashResp : Except Unit String
  blockResp : Except Unit (Option String × Option ℚ)
  hashrateResp : Except Unit ℚ
deriving Repr

/-- src/src/mempool.py lines 34-35: `height = int(height_str) if
height_str.isdigit() else None` applied to the stripped response body. -/
def mempoolHeight (heightText : String) : Option ℕ :=
  if pyIsDigit (pyStrip heightText) then some (pyDigitsToNat (pyStrip heightText)) else none

/-- The `pool`/`net_diff` fetch chain of src/src/mempool.py lines 37-55:
skipped entirely when `height` is falsy (`None` or `0`); a blank block
hash skips the block-detail fetch; the pool name defaults to `"Unknown"`
via the `.get` chain at line 54. -/
def mempoolPoolDiff (f : MempoolFetches) (height : Option ℕ) :
    Except Unit (Option String × Option ℚ) :=
  match height with
  | none => Except.ok (none, none)
  | some h =>
    if h ≠ 0 then
      match f.blockHashResp with
      | Except.error e => Except.error e
      | Except.ok hashText =>
        if !(pyStrip hashText).data.isEmpty then
          match f.blockResp with
          | Except.error e => Except.error e
          | Except.ok bd => Except.ok (some (bd.1.getD "Unknown"), bd.2)
        else Except.ok (none, none)
    else Except.ok (none, none)

/-- The `try` body of one poll cycle, src/src/mempool.py lines 21-72,
in the exception monad (`Except.error ()` = the `except` branch runs).
`float(None)` raising on a missing `"halfHourFee"` is the `Except.ok none`
case of `feesResp`.  Returns the dict written at lines 65-72. -/
def mempoolCycleBody (f : MempoolFetches) : Except Unit MempoolData :=
  match f.feesResp with
  | Except.error _ => Except.error ()
  | Except.ok none => Except.error ()
  | Except.ok (some fees) =>
    match f.heightResp with
    | Except.error _ => Except.error ()
    | Except.ok heightText =>
      match mempoolPoolDiff f (mempoolHeight heightText) with
      | Except.error _ => Except.error ()
      | Except.ok poolDiff =>
        match f.hashrateResp with
        | Except.error _ => Except.error ()
        | Except.ok hr =>
          Except.ok
            { fees_sats_vb := some fees
              block_height := mempoolHeight heightText
              mining_pool := poolDiff.1
              network_hashrate_eh := some (hr / 10 ^ 18)
              network_difficulty := poolDiff.2 }

/-- One full iteration of the `while True` loop of `run_mempool_polling`,
src/src/mempool.py lines 20-83: on success the dict is replaced wholesale
with the freshly fetched values (lines 65-72); on any exception every
field is reset to `None` (lines 74-83). -/
def runMempoolCycle (prev : MempoolData) (f : MempoolFetches) : MempoolData :=
  match mempoolCycleBody f with
  | Except.ok d => d
  | Except.error _ => mempoolAllNone

/-- Spec predicate: every field of the record is absent. -/
def mempoolAllAbsent (d : MempoolData) : Prop :=
  d.fees_sats_vb = none ∧ d.block_height = none ∧ d.mining_pool = none ∧
  d.network_hashrate_eh = none ∧ d.network_difficulty = none

/-- Spec predicate: every field of the record is present. -/
def mempoolAllPresent (d : MempoolData) : Prop :=
  d.fees_sats_vb.isSome ∧ d.block_height.isSome ∧ d.mining_pool.isSome ∧
  d.network_hashrate_eh.isSome ∧ d.network_difficulty.isSome

instance (d : MempoolData) : Decidable (mempoolAllAbsent d) := by
  unfold mempoolAllAbsent; infer_instance

instance (d : MempoolData) : Decidable (mempoolAllPresent d) := by
  unfold mempoolAllPresent; infer_instance

/-! ## Miner polling (src/src/miners.py) -/

/-- Exception classes that `requests.get(...)`, `raise_for_status()` or
`.json()` can raise inside `fetch_miner_stats`, src/src/miners.py lines
20-33. -/
inductive MinerFailure
  | timeout
  | connectionError
  | badHttpStatus
  | malformedJson
deriving DecidableEq, Repr

/-- Decoded `/api/system/info` JSON body: the optional `"hashRate"` (GH/s)
and `"bestDiff"` fields read at src/src/miners.py lines 30-31. -/
structure MinerInfo where
  hashRate : Option ℚ
  bestDiff : Option ℚ
deriving DecidableEq, Repr

/-- src/src/miners.py lines 17-36, `fetch_miner_stats`: the endpoint
interaction is abstracted as its outcome (`Except.error` = any raised
exception).  Success returns `(hashRate/1000, bestDiff, True)` with the
`.get` defaults of lines 30-31; any failure returns `(0.0, 0.0, False)`
from the `except` branch at lines 34-36.  The function is total: no
exception escapes to the caller. -/
def fetch_miner_stats (outcome : Except MinerFailure MinerInfo) : ℚ × ℚ × Bool :=
  match outcome with
  | Except.error _ => (0, 0, false)
  | Except.ok info => ((info.hashRate.getD 0) / 1000, info.bestDiff.getD 0, true)

/-- Shared `miner_stats` dict, src/src/data.py lines 29-34. -/
structure MinerStats where
  total_hashrate_th : ℚ
  best_difficulty : ℚ
  connected_count : ℕ
  active_count : ℕ
deriving DecidableEq, Repr

/-- The per-result accumulation step of the `as_completed` loop,
src/src/miners.py lines 60-67. -/
def minerAccum (threshold : ℚ) (st : MinerStats) (r : ℚ × ℚ × Bool) : MinerStats where
  total_hashrate_th := st.total_hashrate_th + r.1
  best_difficulty := max st.best_difficulty r.2.1
  connected_count := st.connected_count + (if r.2.2 then 1 else 0)
  active_count := st.active_count + (if threshold < r.1 then 1 else 0)

/-- One poll cycle's aggregate, src/src/miners.py lines 55-67: fold the
accumulation step over the endpoint results in completion order, starting
from the zero counters of lines 55-58. -/
def minerCycleAgg (threshold : ℚ) (results : List (ℚ × ℚ × Bool)) : MinerStats :=
  results.foldl (minerAccum threshold) ⟨0, 0, 0, 0⟩

/-- One full cycle including the store write, src/src/miners.py lines
69-77: `miner_stats` is replaced wholesale and `total_hashrate_th` is
appended to the bounded `hash_history` deque. -/
def minerCycle (threshold : ℚ) (maxlen : ℕ) (history : List ℚ)
    (results : List (ℚ × ℚ × Bool)) : MinerStats × List ℚ :=
  let agg := minerCycleAgg threshold results
  (agg, dequeAppend maxlen history agg.total_hashrate_th)

/-! ## WebSocket reconnect backoff (src/src/websockets.py) -/

/-- Whether a given `run_forever` call reached the Live state (its
`on_open` handler fired) before the connection ended. -/
inductive ConnOutcome
  | live
  | failed
deriving DecidableEq, Repr

/-- The backoff update performed after every disconnection:
`backoff = min(backoff * 1.8, 120)` (src/src/websockets.py lines 197 and
261; the float literal 1.8 is embedded as the rational 9/5). -/
def backoffStep (b : ℚ) : ℚ := min (b * (9/5)) 120

/-- The n-th backoff value of a driver loop, starting from the initial
`backoff = 1.0` of src/src/websockets.py lines 185 and 238. -/
def backoffSeq (n : ℕ) : ℚ := backoffStep^[n] 1

/-- The sleep durations of `run_kraken_websocket` (lines 183-197) and
`run_binance_websocket` (lines 236-261): given the outcomes of the
successive `run_forever` calls, each iteration sleeps the current backoff
and then applies `backoffStep`.  The loop bodies never read the outcome —
exactly as in the source, where no statement resets `backoff`. -/
def wsBackoffTrace (b : ℚ) : List ConnOutcome → List ℚ
  | [] => []
  | _ :: rest => b :: wsBackoffTrace (backoffStep b) rest

/-! ## Lock-interleaving model of the `update_ticker_data` critical section
(src/src/helpers.py lines 117-140)

Each field assignment of the `with data_lock:` block becomes one atomic
micro-step; `prVer`, `chVer`, `stVer`, `tmVer` record the index of the
update call that last wrote `price`, `change_24h`, `status` and
`last_update`.  A reader follows the store contract and holds `data_lock`
for the duration of its read, so it can only observe states where the
lock is free. -/

structure WriterState where
  lockHeld : Bool
  pc : ℕ
  prVer : ℕ
  chVer : ℕ
  stVer : ℕ
  tmVer : ℕ
  done : ℕ
deriving DecidableEq, Repr

/-- Initial state: no update has run, lock free. -/
def writerInit : WriterState := ⟨false, 0, 0, 0, 0, 0, 0⟩

/-- Micro-steps of one `update_ticker_data` call (the `done + 1`-st):
acquire `data_lock` (line 117), write `price` (119), `change_24h` (120),
`status` (121), `last_update` (122), the marquee/candle writes (123-140),
then release the lock when the `with` block exits. -/
inductive WriterStep : WriterState → WriterState → Prop
  | acquire (s : WriterState) (h : s.lockHeld = false) (hpc : s.pc = 0) :
      WriterStep s { s with lockHeld := true, pc := 1 }
  | writePrice (s : WriterState) (hpc : s.pc = 1) :
      WriterStep s { s with pc := 2, prVer := s.done + 1 }
  | writeChange (s : WriterState) (hpc : s.pc = 2) :
      WriterStep s { s with pc := 3, chVer := s.done + 1 }
  | writeStatus (s : WriterState) (hpc : s.pc = 3) :
      WriterStep s { s with pc := 4, stVer := s.done + 1 }
  | writeTime (s : WriterState) (hpc : s.pc = 4) :
      WriterStep s { s with pc := 5, tmVer := s.done + 1 }
  | writeMarqueeCandle (s : WriterState) (hpc : s.pc = 5) :
      WriterStep s { s with pc := 6 }
  | release (s : WriterState) (hpc : s.pc = 6) :
      WriterStep s { s with lockHeld := false, pc := 0, done := s.done + 1 }

/-- Reachability from the initial state by writer micro-steps (reads do
not change the state). -/
inductive WriterReach : WriterState → Prop
  | init : WriterReach writerInit
  | step {s s' : WriterState} : WriterReach s → WriterStep s s' → WriterReach s'

/-! ## Supporting lemmas -/

/-- An element of a bounded-deque append is an old element or the new one. -/
theorem mem_dequeAppend {maxlen : ℕ} {l : List α} {x c : α}
    (h : c ∈ dequeAppend maxlen l x) : c ∈ l ∨ c = x := by
  unfold dequeAppend at h
  split at h
  · rcases List.mem_append.1 h with h' | h'
    · exact Or.inl h'
    · exact Or.inr (List.mem_singleton.1 h')
  · rcases List.mem_append.1 h with h' | h'
    · exact Or.inl (List.mem_of_mem_tail h')
    · exact Or.inr (List.mem_singleton.1 h')

/-- Invariant carried through the update path: every closed candle and
the open candle (when present) are well-formed. -/
def wfTicker (t : TickerData) : Prop :=
  (∀ c ∈ t.candles, wfCandle c) ∧ (∀ c, t.current_candle = some c → wfCandle c)

/-- A freshly opened candle (`open=high=low=close=price`) is well-formed. -/
theorem wfCandle_fresh (s : ℤ) (p : ℚ) : wfCandle ⟨s, p, p, p, p⟩ :=
  ⟨le_refl _, le_refl _, le_refl _, le_refl _, le_refl _⟩

/-- Widening (`high=max(high,price)`, `low=min(low,price)`, `close=price`)
preserves well-formedness. -/
theorem wfCandle_widen {c : Candle} (h : wfCandle c) (p : ℚ) :
    wfCandle { c with high := max c.high p, low := min c.low p, close := p } := by
  obtain ⟨h1, h2, h3, h4, h5⟩ := h
  refine ⟨le_trans h1 (le_max_left _ _), le_max_right _ _, ?_, ?_, min_le_right _ _⟩
  · exact le_trans (min_le_right _ _) (le_max_right _ _)
  · exact le_trans (min_le_left _ _) h4

/-- One `update_ticker_data` call preserves the candle invariant. -/
theorem wfTicker_update (candleSeconds : ℚ) (maxCandles : ℕ)
    (t : TickerData) (now price change : ℚ) (um : Bool) (h : wfTicker t) :
    wfTicker (updateTickerFields candleSeconds maxCandles t now price change um) := by
  obtain ⟨hcl, hcur⟩ := h
  unfold updateTickerFields
  cases hc : t.current_candle with
  | none =>
    exact ⟨hcl, fun c hc' => by
      simp only [Option.some.injEq] at hc'
      exact hc' ▸ wfCandle_fresh _ _⟩
  | some c =>
    simp only
    split
    · constructor
      · intro c' hc'
        rcases mem_dequeAppend hc' with h' | h'
        · exact hcl c' h'
        · exact h' ▸ hcur c hc
      · intro c' hc'
        simp only [Option.some.injEq] at hc'
        exact hc' ▸ wfCandle_fresh _ _
    · refine ⟨hcl, fun c' hc' => ?_⟩
      simp only [Option.some.injEq] at hc'
      exact hc' ▸ wfCandle_widen (hcur c hc) price

/-- The candle invariant holds after any sample sequence. -/
theorem wfTicker_runSamples (candleSeconds : ℚ) (maxCandles : ℕ)
    (samples : List (ℚ × ℚ)) (t : TickerData) (h : wfTicker t) :
    wfTicker (runSamples candleSeconds maxCandles samples t) := by
  induction samples generalizing t with
  | nil => exact h
  | cons s rest ih =>
    exact ih _ (wfTicker_update candleSeconds maxCandles t s.1 s.2 0 true h)

/-- Pure reduction of one miner poll cycle exactly as worded in the spec:
total = sum, best = max, connected/active = counts. -/
def specMinerReduction (threshold : ℚ) (rs : List (ℚ × ℚ × Bool)) : MinerStats where
  total_hashrate_th := (rs.map (fun r => r.1)).sum
  best_difficulty := (rs.map (fun r => r.2.1)).foldr max 0
  connected_count := rs.countP (fun r => r.2.2)
  active_count := rs.countP (fun r => decide (threshold < r.1))

theorem foldr_max_nonneg (l : List ℚ) : 0 ≤ l.foldr max 0 := by
  induction l with
  | nil => exact le_refl 0
  | cons x xs ih => exact le_trans ih (le_max_right x _)

/-- Closed form of the accumulation fold, for any accumulator with a
nonnegative running maximum. -/
theorem minerAgg_foldl (threshold : ℚ) (rs : List (ℚ × ℚ × Bool)) :
    ∀ acc : MinerStats, 0 ≤ acc.best_difficulty →
      rs.foldl (minerAccum threshold) acc =
        ⟨acc.total_hashrate_th + (rs.map (fun r => r.1)).sum,
         max acc.best_difficulty ((rs.map (fun r => r.2.1)).foldr max 0),
         acc.connected_count + rs.countP (fun r => r.2.2),
         acc.active_count + rs.countP (fun r => decide (threshold < r.1))⟩ := by
  induction rs with
  | nil =>
    intro acc hacc
    simp [max_eq_left hacc]
  | cons r rest ih =>
    intro acc hacc
    rw [List.foldl_cons, ih (minerAccum threshold acc r)
      (le_trans hacc (le_max_left _ _))]
    simp only [minerAccum, List.map_cons, List.sum_cons, List.foldr_cons,
      List.countP_cons]
    simp only [MinerStats.mk.injEq]
    refine ⟨?_, ?_, ?_, ?_⟩
    · ring
    · exact max_assoc _ _ _
    · split <;> omega
    · by_cases h : threshold < r.1 <;> simp [h] <;> omega

/-- The fold of src/src/miners.py lines 55-67 equals the spec's pure
reduction. -/
theorem minerCycleAgg_eq_spec (threshold : ℚ) (rs : List (ℚ × ℚ × Bool)) :
    minerCycleAgg threshold rs = specMinerReduction threshold rs := by
  rw [minerCycleAgg, minerAgg_foldl threshold rs ⟨0, 0, 0, 0⟩ (le_refl 0)]
  simp [specMinerReduction, max_eq_right (foldr_max_nonneg _)]

/-- The cycle aggregate is invariant under the arrival order of results. -/
theorem minerCycleAgg_perm (threshold : ℚ) (rs₁ rs₂ : List (ℚ × ℚ × Bool))
    (h : rs₁.Perm rs₂) :
    minerCycleAgg threshold rs₁ = minerCycleAgg threshold rs₂ := by
  rw [minerCycleAgg_eq_spec, minerCycleAgg_eq_spec]
  unfold specMinerReduction
  simp only [MinerStats.mk.injEq]
  refine ⟨?_, ?_, ?_, ?_⟩
  · exact (h.map (fun r => r.1)).sum_eq
  · exact List.Perm.foldr_eq (f := max) (h.map (fun r => r.2.1)) 0
  · exact h.countP_eq _
  · exact h.countP_eq _

/-- Inserting a `(0, 0, false)` result anywhere in a cycle leaves the
aggregate unchanged (for a nonnegative active threshold). -/
theorem minerCycleAgg_zero_entry (threshold : ℚ) (l₁ l₂ : List (ℚ × ℚ × Bool))
    (ht : 0 ≤ threshold) :
    minerCycleAgg threshold (l₁ ++ (0, 0, false) :: l₂) =
      minerCycleAgg threshold (l₁ ++ l₂) := by
  rw [minerCycleAgg_eq_spec, minerCycleAgg_eq_spec]
  unfold specMinerReduction
  simp only [MinerStats.mk.injEq, List.map_append, List.map_cons,
    List.countP_append, List.countP_cons, List.foldr_append, List.foldr_cons]
  refine ⟨?_, ?_, ?_, ?_⟩
  · simp
  · rw [max_eq_right (foldr_max_nonneg _)]
  · simp
  · simp [not_lt.2 ht]

/-- The key set of the ticker map. -/
def storeKeys (st : Store) : List String := st.map Prod.fst

/-- Updating the record bound to an existing key never changes the key set. -/
theorem storeKeys_storeSet (st : Store) (key : String) (t : TickerData) :
    storeKeys (storeSet st key t) = storeKeys st := by
  unfold storeKeys storeSet
  rw [List.map_map]
  refine List.map_congr_left ?_
  intro kv _
  simp only [Function.comp_apply]
  split <;> rfl

theorem backoffSeq_succ (n : ℕ) : backoffSeq (n + 1) = backoffStep (backoffSeq n) := by
  unfold backoffSeq
  exact Function.iterate_succ_apply' backoffStep n 1

/-- Every backoff value lies in the interval [1, 120]. -/
theorem backoffSeq_bounds (n : ℕ) : 1 ≤ backoffSeq n ∧ backoffSeq n ≤ 120 := by
  induction n with
  | zero => norm_num [backoffSeq]
  | succ k ih =>
    rw [backoffSeq_succ]
    unfold backoffStep
    constructor
    · refine le_min ?_ (by norm_num)
      nlinarith [ih.1]
    · exact min_le_right _ _

/-- The backoff sequence is non-decreasing. -/
theorem backoffSeq_mono (n : ℕ) : backoffSeq n ≤ backoffSeq (n + 1) := by
  rw [backoffSeq_succ]
  unfold backoffStep
  refine le_min ?_ (backoffSeq_bounds n).2
  nlinarith [(backoffSeq_bounds n).1]

/-- The sleep durations of a driver loop are the iterates of
`backoffStep`, whatever the connection outcomes were. -/
theorem wsBackoffTrace_eq_iterates (os : List ConnOutcome) :
    ∀ b : ℚ, wsBackoffTrace b os =
      (List.range os.length).map (fun n => backoffStep^[n] b) := by
  induction os with
  | nil => intro b; rfl
  | cons o rest ih =>
    intro b
    rw [wsBackoffTrace, ih (backoffStep b), List.length_cons,
      List.range_succ_eq_map, List.map_cons]
    congr 1
    rw [List.map_map]
    refine List.map_congr_left ?_
    intro n _
    simp only [Function.comp_apply]
    exact (Function.iterate_succ_apply backoffStep n b).symm

/-- Every successful cycle body stores `feeRate` and `networkHashrate`
as present fields. -/
theorem mempoolCycleBody_ok_shape (f : MempoolFetches) (d : MempoolData)
    (h : mempoolCycleBody f = Except.ok d) :
    d.fees_sats_vb.isSome ∧ d.network_hashrate_eh.isSome := by
  unfold mempoolCycleBody at h
  repeat' split at h
  all_goals
    first
      | (injection h with h'; subst h'; exact ⟨rfl, rfl⟩)
      | exact Except.noConfusion h

/-- Invariant of the interleaving model: the lock is held whenever the
writer is mid-section, and the per-field versions reflect exactly how far
the critical section has progressed. -/
def writerInv (s : WriterState) : Prop :=
  (s.lockHeld = false → s.pc = 0) ∧
  ((s.pc = 0 ∨ s.pc = 1) →
    s.prVer = s.done ∧ s.chVer = s.done ∧ s.stVer = s.done ∧ s.tmVer = s.done) ∧
  (s.pc = 2 →
    s.prVer = s.done + 1 ∧ s.chVer = s.done ∧ s.stVer = s.done ∧ s.tmVer = s.done) ∧
  (s.pc = 3 →
    s.prVer = s.done + 1 ∧ s.chVer = s.done + 1 ∧ s.stVer = s.done ∧ s.tmVer = s.done) ∧
  (s.pc = 4 →
    s.prVer = s.done + 1 ∧ s.chVer = s.done + 1 ∧ s.stVer = s.done + 1 ∧ s.tmVer = s.done) ∧
  ((s.pc = 5 ∨ s.pc = 6) →
    s.prVer = s.done + 1 ∧ s.chVer = s.done + 1 ∧ s.stVer = s.done + 1 ∧ s.tmVer = s.done + 1)

theorem writerInv_init : writerInv writerInit := by
  simp [writerInv, writerInit]

theorem writerInv_step {s s' : WriterState} (h : writerInv s) (hs : WriterStep s s') :
    writerInv s' := by
  obtain ⟨h0, h01, h2, h3, h4, h56⟩ := h
  cases hs <;> refine ⟨?_, ?_, ?_, ?_, ?_, ?_⟩ <;> simp_all

theorem writerInv_reach {s : WriterState} (h : WriterReach s) : writerInv s := by
  induction h with
  | init => exact writerInv_init
  | step _ hs ih => exact writerInv_step ih hs

/-! ## Claim theorems -/

/-- C1 counterexample: a cycle in which the fee and hashrate fetches
succeed but the height endpoint returns the non-numeric body `"abc"`
stores a mixed record — `feeRate` and `networkHashrate` present,
`blockHeight`/`miningPool`/`networkDifficulty` absent — so the record is
neither all-absent nor all-present after that poll cycle. -/
theorem mempool_all_or_none_counterexample :
    ¬ (mempoolAllAbsent (runMempoolCycle mempoolAllNone
        ⟨Except.ok (some 5), Except.ok ("abc"), Except.ok (""),
         Except.ok (none, none), Except.ok 3⟩) ∨
       mempoolAllPresent (runMempoolCycle mempoolAllNone
        ⟨Except.ok (some 5), Except.ok ("abc"), Except.ok (""),
         Except.ok (none, none), Except.ok 3⟩)) := by
  have h : runMempoolCycle mempoolAllNone
      ⟨Except.ok (some 5), Except.ok ("abc"), Except.ok (""),
       Except.ok (none, none), Except.ok 3⟩ =
      ⟨some 5, none, none, some (3 / 10 ^ 18), none⟩ := rfl
  rw [h]
  simp [mempoolAllAbsent, mempoolAllPresent]

/-- C1 (amended): each poll cycle replaces the record wholesale — the
result never depends on the previous record — and any raised exception
resets every field to absent; a cycle that completes without an exception
always stores `feeRate` and `networkHashrate` as present, but
`blockHeight`, `miningPool` and `networkDifficulty` may individually be
absent (non-numeric height body, blank block hash, missing difficulty
field), so the record need not be all-absent-or-all-present. -/
theorem mempool_cycle_wholesale (prev prev' : MempoolData) (f : MempoolFetches) :
    runMempoolCycle prev f = runMempoolCycle prev' f ∧
    (∀ e : Unit, mempoolCycleBody f = Except.error e →
      mempoolAllAbsent (runMempoolCycle prev f)) ∧
    (∀ d : MempoolData, mempoolCycleBody f = Except.ok d →
      runMempoolCycle prev f = d ∧
      d.fees_sats_vb.isSome ∧ d.network_hashrate_eh.isSome) := by
  refine ⟨rfl, ?_, ?_⟩
  · intro e he
    unfold runMempoolCycle
    rw [he]
    exact ⟨rfl, rfl, rfl, rfl, rfl⟩
  · intro d hd
    unfold runMempoolCycle
    rw [hd]
    exact ⟨rfl, (mempoolCycleBody_ok_shape f d hd).1, (mempoolCycleBody_ok_shape f d hd).2⟩

/-- C1 witness: a cycle whose very first fetch raises resets the record
to all-absent. -/
theorem mempool_cycle_wholesale_witness :
    mempoolAllAbsent (runMempoolCycle mempoolAllNone
      ⟨Except.error (), Except.ok (""), Except.ok (""),
       Except.ok (none, none), Except.ok 0⟩) :=
  (mempool_cycle_wholesale mempoolAllNone mempoolAllNone
    ⟨Except.error (), Except.ok (""), Except.ok (""),
     Except.ok (none, none), Except.ok 0⟩).2.1 () rfl

/-- C2: for every sequence of `(timestamp, price)` samples fed through the
ticker update path starting from a freshly initialised record, every
candle in the closed-candle history satisfies `high ≥ open, close, low`
and `low ≤ open, close, high`. -/
theorem closed_candles_wellformed (candleSeconds : ℚ) (maxCandles : ℕ)
    (source : String) (samples : List (ℚ × ℚ)) :
    ∀ c ∈ (runSamples candleSeconds maxCandles samples (initTicker source)).candles,
      wfCandle c := by
  have h0 : wfTicker (initTicker source) := by
    constructor
    · intro c hc
      simp [initTicker] at hc
    · intro c hc
      simp [initTicker] at hc
  exact (wfTicker_runSamples candleSeconds maxCandles samples _ h0).1

/-- C2 witness: the candle closed after samples at times 0 and 70 (bucket
width 60) is well-formed. -/
theorem closed_candles_wellformed_witness :
    wfCandle ⟨0, 50000, 50000, 50000, 50000⟩ := by
  refine closed_candles_wellformed 60 14 ("binance") [(0, 50000), (70, 50500)]
    ⟨0, 50000, 50000, 50000, 50000⟩ ?_
  norm_num [runSamples, updateTickerFields, initTicker, pyInt, dequeAppend]

/-- C3 counterexample: in a trace whose two connection attempts both
reach Live, the sleep before the second reconnect is 1.8 s, not the
initial 1.0 s — the backoff does not reset upon reaching Live. -/
theorem backoff_no_reset_counterexample :
    wsBackoffTrace 1 [ConnOutcome.live, ConnOutcome.live] = [1, 9/5] ∧
    (9/5 : ℚ) ≠ 1 := by
  constructor
  · norm_num [wsBackoffTrace, backoffStep]
  · norm_num

/-- C3 (amended): for both streaming drivers the reconnect delays are the
iterates of `delay' = min(delay * 1.8, 120)` from 1.0 — giving 1.0, 1.8,
3.24, … capped at 120 and non-decreasing — and they are entirely
independent of the connection outcomes: the delay is never reset, not
even upon reaching Live. -/
theorem ws_backoff_policy :
    (∀ outcomes : List ConnOutcome,
      wsBackoffTrace 1 outcomes = (List.range outcomes.length).map backoffSeq) ∧
    (∀ o₁ o₂ : List ConnOutcome, o₁.length = o₂.length →
      wsBackoffTrace 1 o₁ = wsBackoffTrace 1 o₂) ∧
    backoffSeq 0 = 1 ∧ backoffSeq 1 = 9/5 ∧ backoffSeq 2 = 81/25 ∧
    (∀ n, backoffSeq (n + 1) = min (backoffSeq n * (9/5)) 120) ∧
    (∀ n, backoffSeq n ≤ backoffSeq (n + 1)) ∧
    (∀ n, backoffSeq n ≤ 120) := by
  have e1 : backoffSeq 1 = 9/5 := by
    rw [backoffSeq_succ]
    unfold backoffStep
    rw [show backoffSeq 0 * (9/5) = 9/5 by norm_num [backoffSeq]]
    exact min_eq_left (by norm_num)
  have e2 : backoffSeq 2 = 81/25 := by
    rw [backoffSeq_succ, e1]
    unfold backoffStep
    rw [show (9/5 : ℚ) * (9/5) = 81/25 by norm_num]
    exact min_eq_left (by norm_num)
  refine ⟨?_, ?_, rfl, e1, e2, fun n => backoffSeq_succ n, backoffSeq_mono,
    fun n => (backoffSeq_bounds n).2⟩
  · intro os
    exact wsBackoffTrace_eq_iterates os 1
  · intro o₁ o₂ hlen
    rw [wsBackoffTrace_eq_iterates, wsBackoffTrace_eq_iterates, hlen]

/-- C3 witness: two one-attempt traces with different outcomes produce
the same sleep durations. -/
theorem ws_backoff_policy_witness :
    wsBackoffTrace 1 [ConnOutcome.live] = wsBackoffTrace 1 [ConnOutcome.failed] :=
  ws_backoff_policy.2.1 [ConnOutcome.live] [ConnOutcome.failed] rfl

/-- Bucket-aligned candle start exactly as worded in the spec: the sample
timestamp floored to a multiple of the bucket width. -/
def specBucketStart (bucketWidth now : ℚ) : ℚ :=
  bucketWidth * ⌊now / bucketWidth⌋

/-- C4 counterexample: a first sample at timestamp 90.5 with bucket width
60 opens a candle with `start = 90` (the timestamp truncated to a whole
second), while the claimed bucket-width flooring would give 60. -/
theorem candle_start_not_bucket_aligned :
    (updateTickerFields 60 14 (initTicker ("binance")) (181/2) 50000 0 true).current_candle =
      some ⟨90, 50000, 50000, 50000, 50000⟩ ∧
    specBucketStart 60 (181/2) = 60 ∧
    ((90 : ℚ) ≠ 60) := by
  refine ⟨?_, ?_, by norm_num⟩
  · norm_num [updateTickerFields, initTicker, pyInt]
  · unfold specBucketStart
    rw [show ⌊(181/2 : ℚ) / 60⌋ = 1 by
      rw [Int.floor_eq_iff]
      norm_num]
    norm_num

/-- C4 (amended): when no open candle exists, or the elapsed time since
the open candle's start reaches the bucket width, the previous open
candle (if any) is pushed to the closed history (with oldest-eviction)
and a fresh candle opens with `open = high = low = close = price` and
`start = int(now)` — the timestamp truncated to a whole second, not
floored to a bucket-width multiple; otherwise the open candle is only
widened: `high`, `low`, `close` change, `open` and `start` never do. -/
theorem candle_rollover (candleSeconds : ℚ) (maxCandles : ℕ) (t : TickerData)
    (now price change : ℚ) (um : Bool) :
    (t.current_candle = none →
      (updateTickerFields candleSeconds maxCandles t now price change um).current_candle =
        some ⟨pyInt now, price, price, price, price⟩ ∧
      (updateTickerFields candleSeconds maxCandles t now price change um).candles =
        t.candles) ∧
    (∀ c : Candle, t.current_candle = some c → candleSeconds ≤ now - (c.start : ℚ) →
      (updateTickerFields candleSeconds maxCandles t now price change um).current_candle =
        some ⟨pyInt now, price, price, price, price⟩ ∧
      (updateTickerFields candleSeconds maxCandles t now price change um).candles =
        dequeAppend maxCandles t.candles c) ∧
    (∀ c : Candle, t.current_candle = some c → ¬(candleSeconds ≤ now - (c.start : ℚ)) →
      (updateTickerFields candleSeconds maxCandles t now price change um).current_candle =
        some { c with high := max c.high price, low := min c.low price, close := price } ∧
      (updateTickerFields candleSeconds maxCandles t now price change um).candles =
        t.candles) := by
  refine ⟨?_, ?_, ?_⟩
  · intro h
    simp [updateTickerFields, h]
  · intro c hc hge
    simp [updateTickerFields, hc, if_pos hge]
  · intro c hc hlt
    simp [updateTickerFields, hc, if_neg hlt]

/-- C4 witness: rollover at the bucket boundary for a concrete record. -/
theorem candle_rollover_witness :
    (updateTickerFields 60 14
        { initTicker ("binance") with current_candle := some ⟨0, 1, 1, 1, 1⟩ }
        60 2 0 true).current_candle = some ⟨pyInt 60, 2, 2, 2, 2⟩ ∧
    (updateTickerFields 60 14
        { initTicker ("binance") with current_candle := some ⟨0, 1, 1, 1, 1⟩ }
        60 2 0 true).candles =
      dequeAppend 14 { initTicker ("binance") with
        current_candle := some ⟨0, 1, 1, 1, 1⟩ }.candles ⟨0, 1, 1, 1, 1⟩ :=
  (candle_rollover 60 14 _ 60 2 0 true).2.1 ⟨0, 1, 1, 1, 1⟩ rfl (by norm_num)

/-- C5: the stored miner aggregate of a poll cycle equals the pure
reduction worded in the spec (total = sum of hashrates, best = max of
difficulties, connected/active = counts), is invariant under the arrival
order of the per-endpoint results, and on the scenario inputs
`[(10,500,true),(0,0,false),(5,300,true)]` with threshold 0.25 yields
`{total=15, best=500, connected=2, active=2}`. -/
theorem miner_aggregate_correct :
    (∀ (threshold : ℚ) (maxlen : ℕ) (history : List ℚ)
       (results : List (ℚ × ℚ × Bool)),
      (minerCycle threshold maxlen history results).1 =
        specMinerReduction threshold results) ∧
    (∀ (threshold : ℚ) (rs₁ rs₂ : List (ℚ × ℚ × Bool)), rs₁.Perm rs₂ →
      minerCycleAgg threshold rs₁ = minerCycleAgg threshold rs₂) ∧
    minerCycleAgg MINER_ACTIVE_THRESHOLD
      [(10, 500, true), (0, 0, false), (5, 300, true)] = ⟨15, 500, 2, 2⟩ := by
  refine ⟨fun t m h rs => minerCycleAgg_eq_spec t rs, minerCycleAgg_perm, ?_⟩
  norm_num [MINER_ACTIVE_THRESHOLD, minerCycleAgg, minerAccum]

/-- C5 witness: a transposed arrival order gives the same aggregate. -/
theorem miner_aggregate_correct_witness :
    minerCycleAgg (1/4) [(10, 500, true), (0, 0, false)] =
      minerCycleAgg (1/4) [(0, 0, false), (10, 500, true)] :=
  miner_aggregate_correct.2.1 (1/4) _ _
    (List.Perm.swap (0, 0, false) (10, 500, true) [])

/-- C6: the derived connection health: an unreachable probe forces RED
regardless of the driver statuses; otherwise each status string is
classified against its known-good phrase set and both Ok gives GREEN,
exactly one Ok gives ORANGE, neither gives RED; in particular both
drivers "Live" gives GREEN and one driver "Error" gives ORANGE. -/
theorem ws_health_aggregation :
    (∀ b k : String, get_ws_color false b k = RED) ∧
    (∀ b k : String, binanceOk b = true → krakenOk k = true →
      get_ws_color true b k = GREEN) ∧
    (∀ b k : String, binanceOk b = true → krakenOk k = false →
      get_ws_color true b k = ORANGE) ∧
    (∀ b k : String, binanceOk b = false → krakenOk k = true →
      get_ws_color true b k = ORANGE) ∧
    (∀ b k : String, binanceOk b = false → krakenOk k = false →
      get_ws_color true b k = RED) ∧
    get_ws_color true ("Live") ("Live") = GREEN ∧
    get_ws_color true ("Error") ("Live") = ORANGE ∧
    get_ws_color true ("Live") ("Error") = ORANGE ∧
    get_ws_color true ("Error") ("Error") = RED := by
  refine ⟨fun b k => by simp [get_ws_color],
    fun b k h1 h2 => by simp [get_ws_color, h1, h2],
    fun b k h1 h2 => by simp [get_ws_color, h1, h2],
    fun b k h1 h2 => by simp [get_ws_color, h1, h2],
    fun b k h1 h2 => by simp [get_ws_color, h1, h2],
    by decide, by decide, by decide, by decide⟩

/-- C6 witness: two further Live-equivalent phrases classify Ok and give
GREEN through the classification clause. -/
theorem ws_health_aggregation_witness :
    get_ws_color true ("connected") ("open") = GREEN :=
  ws_health_aggregation.2.1 ("connected") ("open") (by decide) (by decide)

/-- C7: any failure of a miner endpoint query (timeout, connection error,
bad HTTP status, malformed JSON) makes `fetch_miner_stats` return exactly
`(0, 0, false)` — the function is total, so no exception reaches the
caller — and such a result contributes nothing to the cycle's aggregate,
wherever it lands in the result order (for a nonnegative threshold). -/
theorem fetch_failure_isolated :
    (∀ f : MinerFailure, fetch_miner_stats (Except.error f) = (0, 0, false)) ∧
    (∀ (threshold : ℚ) (l₁ l₂ : List (ℚ × ℚ × Bool)) (f : MinerFailure),
      0 ≤ threshold →
      minerCycleAgg threshold (l₁ ++ fetch_miner_stats (Except.error f) :: l₂) =
        minerCycleAgg threshold (l₁ ++ l₂)) := by
  refine ⟨fun f => rfl, fun t l₁ l₂ f ht => ?_⟩
  show minerCycleAgg t (l₁ ++ (0, 0, false) :: l₂) = minerCycleAgg t (l₁ ++ l₂)
  exact minerCycleAgg_zero_entry t l₁ l₂ ht

/-- C7 witness: a timed-out endpoint in a concrete cycle leaves the
aggregate unchanged. -/
theorem fetch_failure_isolated_witness :
    minerCycleAgg (1/4)
        ([(10, 500, true)] ++ fetch_miner_stats (Except.error MinerFailure.timeout) :: []) =
      minerCycleAgg (1/4) ([(10, 500, true)] ++ []) :=
  fetch_failure_isolated.2 (1/4) [(10, 500, true)] [] MinerFailure.timeout (by norm_num)

/-- C8: in the lock-interleaving model of `update_ticker_data`, a reader
that takes `data_lock` (and hence only observes states with the lock
free) always sees `price`, `change_24h`, `status` and `last_update`
written by the same update call: the four field versions coincide in
every reachable lock-free state, so no consistent reader observes a
record with `price` updated but `last_update` stale or vice versa. -/
theorem upsert_atomic_for_readers (s : WriterState) (h : WriterReach s)
    (hl : s.lockHeld = false) :
    s.prVer = s.tmVer ∧ s.chVer = s.prVer ∧ s.stVer = s.prVer := by
  obtain ⟨h0, h01, _, _, _, _⟩ := writerInv_reach h
  obtain ⟨p, c, st', t⟩ := h01 (Or.inl (h0 hl))
  rw [p, c, st', t]
  exact ⟨rfl, rfl, rfl⟩

/-- C8 witness: the state reached after one complete update call is
lock-free and all four field versions are 1. -/
theorem upsert_atomic_for_readers_witness :
    (⟨false, 0, 1, 1, 1, 1, 1⟩ : WriterState).prVer =
        (⟨false, 0, 1, 1, 1, 1, 1⟩ : WriterState).tmVer ∧
      (⟨false, 0, 1, 1, 1, 1, 1⟩ : WriterState).chVer =
        (⟨false, 0, 1, 1, 1, 1, 1⟩ : WriterState).prVer ∧
      (⟨false, 0, 1, 1, 1, 1, 1⟩ : WriterState).stVer =
        (⟨false, 0, 1, 1, 1, 1, 1⟩ : WriterState).prVer := by
  have r1 : WriterReach ⟨true, 1, 0, 0, 0, 0, 0⟩ :=
    WriterReach.step WriterReach.init (WriterStep.acquire writerInit rfl rfl)
  have r2 : WriterReach ⟨true, 2, 1, 0, 0, 0, 0⟩ :=
    WriterReach.step r1 (WriterStep.writePrice _ rfl)
  have r3 : WriterReach ⟨true, 3, 1, 1, 0, 0, 0⟩ :=
    WriterReach.step r2 (WriterStep.writeChange _ rfl)
  have r4 : WriterReach ⟨true, 4, 1, 1, 1, 0, 0⟩ :=
    WriterReach.step r3 (WriterStep.writeStatus _ rfl)
  have r5 : WriterReach ⟨true, 5, 1, 1, 1, 1, 0⟩ :=
    WriterReach.step r4 (WriterStep.writeTime _ rfl)
  have r6 : WriterReach ⟨true, 6, 1, 1, 1, 1, 0⟩ :=
    WriterReach.step r5 (WriterStep.writeMarqueeCandle _ rfl)
  have r7 : WriterReach ⟨false, 0, 1, 1, 1, 1, 1⟩ :=
    WriterReach.step r6 (WriterStep.release _ rfl)
  exact upsert_atomic_for_readers _ r7 rfl

/-- C9: `update_ticker_data` on a key absent from the ticker map raises
`KeyError` (the lookup precedes every mutation, so the store is left
unchanged), and a successful update never changes the key set — the set
of ticker keys is fixed by the initialisation loop for the process
lifetime. -/
theorem unknown_key_keyerror :
    (∀ (candleSeconds : ℚ) (maxCandles : ℕ) (st : Store) (key : String)
       (now price change : ℚ) (um : Bool),
      storeLookup st key = none →
      update_ticker_data candleSeconds maxCandles st key now price change um =
        Except.error ()) ∧
    (∀ (candleSeconds : ℚ) (maxCandles : ℕ) (st : Store) (key : String)
       (now price change : ℚ) (um : Bool) (st' : Store),
      update_ticker_data candleSeconds maxCandles st key now price change um =
        Except.ok st' →
      storeKeys st' = storeKeys st) := by
  constructor
  · intro cs mc st key now price change um h
    unfold update_ticker_data
    rw [h]
  · intro cs mc st key now price change um st' h
    unfold update_ticker_data at h
    cases hl : storeLookup st key with
    | none =>
      rw [hl] at h
      exact Except.noConfusion h
    | some t =>
      rw [hl] at h
      injection h with h'
      rw [← h']
      exact storeKeys_storeSet st key _

/-- C9 witness: on a one-symbol store, an unknown key errors and a known
key preserves the key set. -/
theorem unknown_key_keyerror_witness :
    update_ticker_data 60 14 [("btcusdt", initTicker ("binance"))] ("xmrusdt")
        100 50000 0 true = Except.error () ∧
    storeKeys (storeSet [("btcusdt", initTicker ("binance"))] ("btcusdt")
        (updateTickerFields 60 14 (initTicker ("binance")) 100 50000 0 true)) =
      storeKeys [("btcusdt", initTicker ("binance"))] :=
  ⟨unknown_key_keyerror.1 60 14 [("btcusdt", initTicker ("binance"))] ("xmrusdt")
     100 50000 0 true rfl,
   unknown_key_keyerror.2 60 14 [("btcusdt", initTicker ("binance"))] ("btcusdt")
     100 50000 0 true
     (storeSet [("btcusdt", initTicker ("binance"))] ("btcusdt")
       (updateTickerFields 60 14 (initTicker ("binance")) 100 50000 0 true)) rfl⟩

/-- C10: the initial `"Connecting…"` driver status strings classify as Ok
against both known-good phrase sets, so with a successful connectivity
probe and neither streaming connection ever established the derived
health is GREEN (Healthy), not ORANGE or RED. -/
theorem initial_status_healthy :
    binanceOk initialBinanceStatus = true ∧
    krakenOk initialKrakenStatus = true ∧
    get_ws_color true initialBinanceStatus initialKrakenStatus = GREEN := by
  decide

end RCT

